import Mathlib

/-!
# go-crud: a shallow embedding of `main.go`

The program is a set of twelve gin handlers over two gorm tables, `users` and
`products`.  Each handler is embedded as a function from the database state
before the request to the pair of the database state after it and the JSON
response it sends.

What the embedding fixes about the libraries the handlers call:

* `strconv.Atoi` (`Atoi` below): an optional sign, then one or more ASCII
  digits, and a value that fits a 64-bit `int`.
* `context.PostForm` (`PostForm`): the first value posted under a key, and the
  empty string when the key is absent.
* `context.Param("id")` is represented by the integer key the database
  compares it with in `id = ?`.
* gorm statements (`First`, `Find`, `Create`, `Updates`, `Delete`) act on the
  two tables as lists of rows.  Every statement may also fail for a reason of
  the storage layer; which statements fail during a request is given by a
  `Faults` argument.  A statement that fails changes nothing.
* `Updates` with a struct argument writes only the non-zero fields of the
  struct, as gorm documents; `Create` writes every field and lets the engine
  assign the key when the struct's key is zero.
* The engine assigns keys from the AUTO_INCREMENT counter of each table.  The
  counter is part of the database state: it moves past every key it hands out
  and is not moved back by a delete, so a key is never handed out twice.
* The association fields `User.Products` and `Product.User` are never loaded
  by any handler and are not serialised (`json:"-"`); they are left out.
-/

namespace GoCrud

/-! ## Models (main.go, lines 14-29) -/

/-- Row of the `users` table: the `User` struct without its association field. -/
structure User where
  ID : Int
  Name : String
  Email : String
  Gender : String
  Age : Int
  deriving DecidableEq, Repr

/-- Row of the `products` table: the `Product` struct without its association field. -/
structure Product where
  ID : Int
  UserID : Int
  Name : String
  Price : Int
  deriving DecidableEq, Repr

/-- Go zero value of `User`, the value of `var user User`. -/
def User.zero : User := ⟨0, "", "", "", 0⟩

/-- Go zero value of `Product`, the value of `var product Product`. -/
def Product.zero : Product := ⟨0, 0, "", 0⟩

/-- Database state: the rows of the two tables, in storage order, and the
AUTO_INCREMENT counter of each table. -/
structure DB where
  users : List User
  products : List Product
  userSeq : Int
  productSeq : Int
  deriving DecidableEq, Repr

/-! ## Library functions the handlers call -/

/-- Value of a run of ASCII decimal digits read left to right from `acc`;
`none` when a character is not a digit. -/
def digitsValue : List Char → Nat → Option Nat
  | [], acc => some acc
  | c :: cs, acc =>
    if '0' ≤ c ∧ c ≤ '9' then digitsValue cs (acc * 10 + (c.toNat - '0'.toNat)) else none

/-- Unsigned part of `strconv.Atoi`: at least one digit, digits only. -/
def parseDigits (cs : List Char) : Option Nat :=
  if cs.isEmpty then none else digitsValue cs 0

/-- Go `strconv.Atoi` on a 64-bit platform: `some n` when the call returns a nil
error, `none` when it returns a syntax or range error. -/
def Atoi (s : String) : Option Int :=
  match s.toList with
  | [] => none
  | '-' :: cs =>
    match parseDigits cs with
    | some n => if n ≤ 2 ^ 63 then some (-(n : Int)) else none
    | none => none
  | '+' :: cs =>
    match parseDigits cs with
    | some n => if n < 2 ^ 63 then some (n : Int) else none
    | none => none
  | cs =>
    match parseDigits cs with
    | some n => if n < 2 ^ 63 then some (n : Int) else none
    | none => none

/-- Posted form of a request: the key/value pairs of the body, in order. -/
abbrev Form := List (String × String)

/-- Gin `context.PostForm(key)`: the first value posted under `key`, and the
empty string when there is none. -/
def PostForm (form : Form) (key : String) : String :=
  match form.find? (fun kv => kv.1 == key) with
  | some kv => kv.2
  | none => ""

/-! ## The storage layer -/

/-- The gorm statements the handlers issue.  No handler issues the same
statement twice in one request. -/
inductive Stmt
  | firstUser
  | findUsers
  | createUser
  | updatesUser
  | deleteUser
  | firstProduct
  | findProducts
  | createProduct
  | updatesProduct
  | deleteProduct
  | findUserProducts
  deriving DecidableEq, Repr

/-- Which statements fail at the storage layer during one request. -/
abbrev Faults := Stmt → Bool

/-- Request during which no statement fails at the storage layer. -/
def noFaults : Faults := fun _ => false

/-- Non-nil `.Error` of a gorm statement. -/
inductive DbError
  | recordNotFound
  | storage
  deriving DecidableEq, Repr

/-- Statement `db.Where("id = ?", id).First(&user)`. -/
def DB.firstUser (db : DB) (faults : Faults) (id : Int) : Except DbError User :=
  if faults .firstUser then .error .storage
  else match db.users.find? (fun u => u.ID == id) with
    | some u => .ok u
    | none => .error .recordNotFound

/-- Statement `db.Where("id = ?", id).First(&product)`. -/
def DB.firstProduct (db : DB) (faults : Faults) (id : Int) : Except DbError Product :=
  if faults .firstProduct then .error .storage
  else match db.products.find? (fun p => p.ID == id) with
    | some p => .ok p
    | none => .error .recordNotFound

/-- Statement `db.Select("*").Find(&users)`. -/
def DB.findUsers (db : DB) (faults : Faults) : Except DbError (List User) :=
  if faults .findUsers then .error .storage else .ok db.users

/-- Statement `db.Select("*").Find(&products)`. -/
def DB.findProducts (db : DB) (faults : Faults) : Except DbError (List Product) :=
  if faults .findProducts then .error .storage else .ok db.products

/-- Statement `db.Where("user_id = ?", id).Find(&products)`. -/
def DB.findUserProducts (db : DB) (faults : Faults) (id : Int) :
    Except DbError (List Product) :=
  if faults .findUserProducts then .error .storage
  else .ok (db.products.filter (fun p => p.UserID == id))

/-- Key the engine assigns to the next inserted user: the AUTO_INCREMENT
counter of the users table, which the engine keeps above every stored key (and
at least 1). -/
def DB.nextUserID (db : DB) : Int :=
  max db.userSeq (db.users.foldr (fun u m => max u.ID m) 0 + 1)

/-- Key the engine assigns to the next inserted product: the AUTO_INCREMENT
counter of the products table. -/
def DB.nextProductID (db : DB) : Int :=
  max db.productSeq (db.products.foldr (fun p m => max p.ID m) 0 + 1)

/-- Statement `db.Create(&user)`: inserts every field; a zero key is assigned by
the engine and written back to the struct; a key already present is rejected.
The counter moves past the inserted key. -/
def DB.createUser (db : DB) (faults : Faults) (user : User) : Except DbError (DB × User) :=
  if faults .createUser then .error .storage
  else
    let row : User := if user.ID = 0 then { user with ID := db.nextUserID } else user
    if db.users.any (fun u => u.ID == row.ID) then .error .storage
    else .ok ({ db with users := db.users ++ [row], userSeq := max db.userSeq (row.ID + 1) }, row)

/-- Statement `db.Create(&product)`. -/
def DB.createProduct (db : DB) (faults : Faults) (product : Product) :
    Except DbError (DB × Product) :=
  if faults .createProduct then .error .storage
  else
    let row : Product :=
      if product.ID = 0 then { product with ID := db.nextProductID } else product
    if db.products.any (fun p => p.ID == row.ID) then .error .storage
    else .ok ({ db with
      products := db.products ++ [row], productSeq := max db.productSeq (row.ID + 1) }, row)

/-- Row selected by `Where("id = ?", id)` together with the condition gorm adds
for a non-zero primary key of the struct passed to `Updates` or `Delete`. -/
def selects (id structID rowID : Int) : Bool :=
  rowID == id && (structID == 0 || rowID == structID)

/-- Assignments of `Updates(&user)`: each non-zero, non-key field of the struct. -/
def User.patch (row user : User) : User :=
  { row with
    Name := if user.Name = "" then row.Name else user.Name
    Email := if user.Email = "" then row.Email else user.Email
    Gender := if user.Gender = "" then row.Gender else user.Gender
    Age := if user.Age = 0 then row.Age else user.Age }

/-- Assignments of `Updates(&product)`: each non-zero, non-key field of the struct. -/
def Product.patch (row product : Product) : Product :=
  { row with
    UserID := if product.UserID = 0 then row.UserID else product.UserID
    Name := if product.Name = "" then row.Name else product.Name
    Price := if product.Price = 0 then row.Price else product.Price }

/-- Statement `db.Where("id = ?", id).Updates(&user)`. -/
def DB.updatesUser (db : DB) (faults : Faults) (id : Int) (user : User) : Except DbError DB :=
  if faults .updatesUser then .error .storage
  else .ok { db with
    users := db.users.map (fun row => if selects id user.ID row.ID then row.patch user else row) }

/-- Statement `db.Where("id = ?", id).Updates(&product)`. -/
def DB.updatesProduct (db : DB) (faults : Faults) (id : Int) (product : Product) :
    Except DbError DB :=
  if faults .updatesProduct then .error .storage
  else .ok { db with
    products := db.products.map
      (fun row => if selects id product.ID row.ID then row.patch product else row) }

/-- Statement `db.Where("id = ?", id).Delete(&user)`.  The foreign key of
`products.user_id` is declared `OnDelete:CASCADE`, so the products of a
deleted user row are deleted with it.  The counters stay where they are. -/
def DB.deleteUser (db : DB) (faults : Faults) (id : Int) (user : User) : Except DbError DB :=
  if faults .deleteUser then .error .storage
  else .ok { db with
    users := db.users.filter (fun row => !selects id user.ID row.ID)
    products := db.products.filter (fun p =>
      !db.users.any (fun row => selects id user.ID row.ID && p.UserID == row.ID) ) }

/-- Statement `db.Where("id = ?", id).Delete(&product)`. -/
def DB.deleteProduct (db : DB) (faults : Faults) (id : Int) (product : Product) :
    Except DbError DB :=
  if faults .deleteProduct then .error .storage
  else .ok { db with
    products := db.products.filter (fun row => !selects id product.ID row.ID) }

/-! ## Responses -/

/-- Value under the `data` key of a response. -/
inductive Data
  | null
  | user (u : User)
  | product (p : Product)
  | users (us : List User)
  | products (ps : List Product)
  deriving DecidableEq, Repr

/-- Call `context.JSON(status, gin.H{...})`: the status and the keys of the
envelope; `none` is JSON `null`, and `totalCount` is `none` when the key is
not in the envelope. -/
structure Response where
  status : Nat
  data : Data
  totalCount : Option Nat
  message : Option String
  error : Option String
  deriving DecidableEq, Repr

/-- Envelope `{"data": nil, "message": nil, "error": msg}` sent with `status`. -/
def errorJSON (status : Nat) (msg : String) : Response :=
  { status := status, data := .null, totalCount := none, message := none, error := some msg }

/-- Envelope `{"data": data, "message": msg, "error": nil}` sent with status 200. -/
def okJSON (data : Data) (msg : String) : Response :=
  { status := 200, data := data, totalCount := none, message := some msg, error := none }

/-- Envelope `{"data": data, "totalCount": n, "message": msg, "error": nil}` sent
with status 200. -/
def listJSON (data : Data) (n : Nat) (msg : String) : Response :=
  { status := 200, data := data, totalCount := some n, message := some msg, error := none }

/-! ## User handlers (main.go, lines 92-275) -/

/-- Handler `getUser` (lines 92-112). -/
def getUser (db : DB) (faults : Faults) (id : Int) : DB × Response :=
  match db.firstUser faults id with
  | .error _ => (db, errorJSON 404 "user not found")
  | .ok user => (db, okJSON (.user user) "user found")

/-- Handler `listUsers` (lines 114-142). -/
def listUsers (db : DB) (faults : Faults) : DB × Response :=
  match db.findUsers faults with
  | .error _ => (db, errorJSON 404 "no record found")
  | .ok users =>
    let message := if users.length = 0 then "no record found" else "users found"
    (db, listJSON (.users users) users.length message)

/-- Handler `createUser` (lines 144-180). -/
def createUser (db : DB) (faults : Faults) (form : Form) : DB × Response :=
  let user : User := User.zero
  let user := { user with Name := PostForm form "name" }
  let user := { user with Email := PostForm form "email" }
  let user := { user with Gender := PostForm form "gender" }
  match Atoi (PostForm form "age") with
  | none => (db, errorJSON 400 "invalid age format")
  | some userAge =>
    let user := { user with Age := userAge }
    match db.createUser faults user with
    | .error _ => (db, errorJSON 404 "user couldn't be created")
    | .ok (db1, user) => (db1, okJSON (.user user) "user created successfully")

/-- Handler `updateUser` (lines 182-242). -/
def updateUser (db : DB) (faults : Faults) (id : Int) (form : Form) : DB × Response :=
  match db.firstUser faults id with
  | .error _ => (db, errorJSON 404 "user not found")
  | .ok user =>
    let userName := PostForm form "name"
    let user := if userName ≠ "" then { user with Name := userName } else user
    let userEmail := PostForm form "email"
    let user := if userEmail ≠ "" then { user with Email := userEmail } else user
    let userGender := PostForm form "gender"
    let user := if userGender ≠ "" then { user with Gender := userGender } else user
    let age := PostForm form "age"
    let parsed : Option User :=
      if age ≠ "" then
        match Atoi age with
        | none => none
        | some userAge => some { user with Age := userAge }
      else some user
    match parsed with
    | none => (db, errorJSON 400 "invalid age format")
    | some user =>
      match db.updatesUser faults id user with
      | .error _ => (db, errorJSON 404 "user couldn't be updated")
      | .ok db1 => (db1, okJSON (.user user) "user updated successfully")

/-- Handler `deleteUser` (lines 244-275). -/
def deleteUser (db : DB) (faults : Faults) (id : Int) : DB × Response :=
  match db.firstUser faults id with
  | .error _ => (db, errorJSON 404 "user not found")
  | .ok user =>
    match db.deleteUser faults id user with
    | .error _ => (db, errorJSON 404 "user couldn't be deleted")
    | .ok db1 => (db1, okJSON .null "user deleted successfully")

/-! ## Product handlers (main.go, lines 278-527) -/

/-- Handler `getProduct` (lines 278-300). -/
def getProduct (db : DB) (faults : Faults) (id : Int) : DB × Response :=
  match db.firstProduct faults id with
  | .error _ => (db, errorJSON 404 "product not found")
  | .ok product => (db, okJSON (.product product) "product found")

/-- Handler `listProducts` (lines 302-330). -/
def listProducts (db : DB) (faults : Faults) : DB × Response :=
  match db.findProducts faults with
  | .error _ => (db, errorJSON 404 "no record found")
  | .ok products =>
    let message := if products.length = 0 then "no record found" else "products found"
    (db, listJSON (.products products) products.length message)

/-- Handler `createProduct` (lines 332-402). -/
def createProduct (db : DB) (faults : Faults) (form : Form) : DB × Response :=
  let product : Product := Product.zero
  match Atoi (PostForm form "user_id") with
  | none => (db, errorJSON 400 "invalid user ID format")
  | some productUserID =>
    match db.firstUser faults productUserID with
    | .error _ => (db, errorJSON 404 "user not found")
    | .ok _ =>
      let product := { product with UserID := productUserID }
      let product := { product with Name := PostForm form "name" }
      match Atoi (PostForm form "price") with
      | none => (db, errorJSON 400 "invalid age format")
      | some productPrice =>
        let product := { product with Price := productPrice }
        match db.createProduct faults product with
        | .error _ => (db, errorJSON 404 "product couldn't be created")
        | .ok (db1, product) => (db1, okJSON (.product product) "product created successfully")

/-- Outcome of the `user_id` block of `updateProduct` (lines 422-446): the
struct to carry on with, or the response of the early return. -/
def updateProductOwner (db : DB) (faults : Faults) (form : Form) (product : Product) :
    Except Response Product :=
  let userID := PostForm form "user_id"
  if userID ≠ "" then
    match Atoi userID with
    | none => .error (errorJSON 400 "invalid age format")
    | some productUserID =>
      match db.firstUser faults productUserID with
      | .error _ => .error (errorJSON 404 "user not found")
      | .ok _ => .ok { product with UserID := productUserID }
  else .ok product

/-- Outcome of the `price` block of `updateProduct` (lines 451-464). -/
def updateProductPrice (form : Form) (product : Product) : Except Response Product :=
  let price := PostForm form "price"
  if price ≠ "" then
    match Atoi price with
    | none => .error (errorJSON 400 "invalid age format")
    | some productPrice => .ok { product with Price := productPrice }
  else .ok product

/-- Handler `updateProduct` (lines 404-494). -/
def updateProduct (db : DB) (faults : Faults) (id : Int) (form : Form) : DB × Response :=
  match db.firstProduct faults id with
  | .error _ => (db, errorJSON 404 "product not found")
  | .ok product =>
    match updateProductOwner db faults form product with
    | .error resp => (db, resp)
    | .ok product =>
      let productName := PostForm form "name"
      let product := if productName ≠ "" then { product with Name := productName } else product
      match updateProductPrice form product with
      | .error resp => (db, resp)
      | .ok product =>
        match db.updatesProduct faults id product with
        | .error _ => (db, errorJSON 404 "product couldn't be updated")
        | .ok db1 => (db1, okJSON (.product product) "product updated successfully")

/-- Handler `deleteProduct` (lines 496-527). -/
def deleteProduct (db : DB) (faults : Faults) (id : Int) : DB × Response :=
  match db.firstProduct faults id with
  | .error _ => (db, errorJSON 404 "product not found")
  | .ok product =>
    match db.deleteProduct faults id product with
    | .error _ => (db, errorJSON 404 "product couldn't be deleted")
    | .ok db1 => (db1, okJSON .null "product deleted successfully")

/-! ## Relation handlers (main.go, lines 530-596) -/

/-- Handler `userProducts` (lines 530-562). -/
def userProducts (db : DB) (faults : Faults) (id : Int) : DB × Response :=
  match db.firstUser faults id with
  | .error _ => (db, errorJSON 404 "user not found")
  | .ok _ =>
    match db.findUserProducts faults id with
    | .error _ => (db, errorJSON 404 "no record found")
    | .ok products => (db, listJSON (.products products) products.length "products found")

/-- Handler `productOwner` (lines 565-596). -/
def productOwner (db : DB) (faults : Faults) (id : Int) : DB × Response :=
  match db.firstProduct faults id with
  | .error _ => (db, errorJSON 404 "product not found")
  | .ok product =>
    match db.firstUser faults product.UserID with
    | .error _ => (db, errorJSON 404 "user not found")
    | .ok user => (db, okJSON (.user user) "user found")

/-! ## Router (main.go, lines 43-86) -/

/-- Request the router dispatches: the route, its path parameter and its form. -/
inductive Request
  | getUser (id : Int)
  | listUsers
  | createUser (form : Form)
  | updateUser (id : Int) (form : Form)
  | deleteUser (id : Int)
  | getProduct (id : Int)
  | listProducts
  | createProduct (form : Form)
  | updateProduct (id : Int) (form : Form)
  | deleteProduct (id : Int)
  | userProducts (id : Int)
  | productOwner (id : Int)
  deriving Repr

/-- Dispatch of a request to its handler. -/
def handle (db : DB) (faults : Faults) : Request → DB × Response
  | .getUser id => getUser db faults id
  | .listUsers => listUsers db faults
  | .createUser form => createUser db faults form
  | .updateUser id form => updateUser db faults id form
  | .deleteUser id => deleteUser db faults id
  | .getProduct id => getProduct db faults id
  | .listProducts => listProducts db faults
  | .createProduct form => createProduct db faults form
  | .updateProduct id form => updateProduct db faults id form
  | .deleteProduct id => deleteProduct db faults id
  | .userProducts id => userProducts db faults id
  | .productOwner id => productOwner db faults id

/-- Referential integrity: every stored product's `user_id` is the key of a
stored user. -/
def RefIntegrity (db : DB) : Prop :=
  ∀ p ∈ db.products, ∃ u ∈ db.users, u.ID = p.UserID

instance (db : DB) : Decidable (RefIntegrity db) := by
  unfold RefIntegrity; infer_instance

/-! ## Sample states and requests -/

/-- Database with no row in either table and no key handed out yet. -/
def emptyDB : DB := ⟨[], [], 1, 1⟩

/-- Database with two users and two products, both owned by user 1; user 2
owns no product.  Keys 1 and 2 have been handed out in each table. -/
def sampleDB : DB :=
  ⟨[⟨1, "Ann", "a@x.com", "F", 30⟩, ⟨2, "Bob", "b@x.com", "M", 41⟩],
   [⟨1, 1, "pen", 5⟩, ⟨2, 1, "ink", 7⟩], 3, 3⟩

/-- Form of a `createProduct` request for user 1. -/
def cupForm : Form := [("user_id", "1"), ("name", "cup"), ("price", "3")]

/-- Form of a `createProduct` request for an unknown owner and a malformed price. -/
def orphanForm : Form := [("user_id", "7"), ("name", "cup"), ("price", "cheap")]

/-- Form of a `createUser` request with a well-formed age. -/
def aliceForm : Form := [("name", "Alice"), ("email", "a@x.com"), ("gender", "F"), ("age", "30")]

/-- Form of an `updateUser` request with a name and a malformed age. -/
def badAgeForm : Form := [("name", "X"), ("age", "old")]

/-- Form of an `updateProduct` request that moves the product to user 2. -/
def moveForm : Form := [("user_id", "2")]

/-- Form of an `updateUser` request that sets the age to zero. -/
def zeroAgeForm : Form := [("age", "0")]

/-- Form of an `updateProduct` request that sets the price to zero. -/
def zeroPriceForm : Form := [("price", "0")]

/-! ## Auxiliary facts -/

theorem updateProductOwner_error {db : DB} {faults : Faults} {form : Form} {product : Product}
    {resp : Response} (h : updateProductOwner db faults form product = .error resp) :
    resp = errorJSON 400 "invalid age format" ∨ resp = errorJSON 404 "user not found" := by
  unfold updateProductOwner at h
  simp only at h
  split at h
  · split at h
    · left; injection h with h; exact h.symm
    · split at h
      · right; injection h with h; exact h.symm
      · cases h
  · cases h

theorem updateProductPrice_error {form : Form} {product : Product} {resp : Response}
    (h : updateProductPrice form product = .error resp) :
    resp = errorJSON 400 "invalid age format" := by
  unfold updateProductPrice at h
  simp only at h
  split at h
  · split at h
    · injection h with h; exact h.symm
    · cases h
  · cases h

theorem firstUser_ok {db : DB} {faults : Faults} {id : Int} {u : User}
    (h : db.firstUser faults id = .ok u) : u ∈ db.users ∧ u.ID = id := by
  unfold DB.firstUser at h
  split at h
  · cases h
  · split at h
    · rename_i v hv
      injection h with h
      subst h
      exact ⟨List.mem_of_find?_eq_some hv, by simpa using List.find?_some hv⟩
    · cases h

theorem firstProduct_ok {db : DB} {faults : Faults} {id : Int} {p : Product}
    (h : db.firstProduct faults id = .ok p) : p ∈ db.products ∧ p.ID = id := by
  unfold DB.firstProduct at h
  split at h
  · cases h
  · split at h
    · rename_i v hv
      injection h with h
      subst h
      exact ⟨List.mem_of_find?_eq_some hv, by simpa using List.find?_some hv⟩
    · cases h

theorem firstUser_of_missing {db : DB} (faults : Faults) {id : Int}
    (h : ∀ u ∈ db.users, u.ID ≠ id) : ∃ e, db.firstUser faults id = .error e := by
  cases hf : db.firstUser faults id with
  | error e => exact ⟨e, rfl⟩
  | ok u => exact absurd (firstUser_ok hf).2 (h u (firstUser_ok hf).1)

theorem firstUser_of_stored {db : DB} {faults : Faults} {id : Int}
    (h : ∃ u ∈ db.users, u.ID = id) (hf : faults .firstUser = false) :
    ∃ u, db.firstUser faults id = .ok u := by
  obtain ⟨u, hu, hid⟩ := h
  unfold DB.firstUser
  simp only [hf, Bool.false_eq_true, if_false]
  cases hfind : db.users.find? (fun u => u.ID == id) with
  | some v => exact ⟨v, rfl⟩
  | none =>
    have := List.find?_eq_none.mp hfind u hu
    simp [hid] at this

theorem lt_nextUserID (db : DB) : ∀ u ∈ db.users, u.ID < db.nextUserID := by
  have hmax : ∀ us : List User, ∀ u ∈ us,
      u.ID < us.foldr (fun u m => max u.ID m) 0 + 1 := by
    intro us
    induction us with
    | nil => intro u hu; cases hu
    | cons v vs ih =>
      intro u hu
      simp only [List.foldr_cons]
      rcases List.mem_cons.mp hu with rfl | hu
      · have := le_max_left u.ID (List.foldr (fun u m => max u.ID m) 0 vs)
        omega
      · have := ih u hu
        have := le_max_right v.ID (List.foldr (fun u m => max u.ID m) 0 vs)
        omega
  intro u hu
  unfold DB.nextUserID
  have := hmax db.users u hu
  have := le_max_right db.userSeq (db.users.foldr (fun u m => max u.ID m) 0 + 1)
  omega

theorem createUser_zero_key (db : DB) {faults : Faults} (user : User)
    (hf : faults .createUser = false) (hz : user.ID = 0) :
    db.createUser faults user =
      .ok ({ db with
          users := db.users ++ [{ user with ID := db.nextUserID }]
          userSeq := max db.userSeq (db.nextUserID + 1) },
        { user with ID := db.nextUserID }) := by
  have hfresh : db.users.any (fun u => u.ID == db.nextUserID) = false := by
    rw [List.any_eq_false]
    intro u hu
    have := lt_nextUserID db u hu
    simp only [beq_iff_eq]
    omega
  simp [DB.createUser, hf, hz, hfresh]

theorem createUser_ok {db db1 : DB} {faults : Faults} {user row : User}
    (h : db.createUser faults user = .ok (db1, row)) :
    db1 = { db with users := db.users ++ [row], userSeq := max db.userSeq (row.ID + 1) } := by
  unfold DB.createUser at h
  by_cases hf : faults .createUser = true
  · simp [hf] at h
  · simp only [hf, Bool.false_eq_true, if_false] at h
    by_cases hz : user.ID = 0 <;> simp only [hz, if_true, if_false] at h <;> split at h
    all_goals (cases h <;> try rfl)

theorem createProduct_ok {db db1 : DB} {faults : Faults} {product row : Product}
    (h : db.createProduct faults product = .ok (db1, row)) :
    db1 = { db with
      products := db.products ++ [row], productSeq := max db.productSeq (row.ID + 1) } ∧
    row.UserID = product.UserID := by
  unfold DB.createProduct at h
  by_cases hf : faults .createProduct = true
  · simp [hf] at h
  · simp only [hf, Bool.false_eq_true, if_false] at h
    by_cases hz : product.ID = 0 <;> simp only [hz, if_true, if_false] at h <;> split at h
    all_goals (cases h <;> try exact ⟨rfl, rfl⟩)

theorem find_user_of_mem {us : List User} (hk : (us.map (fun r => r.ID)).Nodup) {u : User}
    (hu : u ∈ us) : us.find? (fun r => r.ID == u.ID) = some u := by
  induction us with
  | nil => cases hu
  | cons v vs ih =>
    rw [List.map_cons, List.nodup_cons] at hk
    rcases List.mem_cons.mp hu with rfl | hu
    · simp
    · have hne : v.ID ≠ u.ID := by
        intro he
        exact hk.1 (he ▸ List.mem_map_of_mem (fun r => r.ID) hu)
      simp [List.find?_cons, hne, ih hk.2 hu]

theorem selects_self (id rowID : Int) : selects id id rowID = (rowID == id) := by
  unfold selects
  cases h : rowID == id <;> simp [h]

theorem user_patch_keeps_ID (row user : User) : (row.patch user).ID = row.ID := rfl

theorem updateProductOwner_ok {db : DB} {faults : Faults} {form : Form} {p p1 : Product}
    (h : updateProductOwner db faults form p = .ok p1) :
    p1.ID = p.ID ∧ p1.Name = p.Name ∧ p1.Price = p.Price ∧
    (p1.UserID = p.UserID ∨ ∃ u, db.firstUser faults p1.UserID = .ok u) := by
  unfold updateProductOwner at h
  simp only at h
  split at h
  · split at h
    · cases h
    · split at h
      · cases h
      · rename_i n _ u hu
        cases h
        exact ⟨rfl, rfl, rfl, Or.inr ⟨u, hu⟩⟩
  · cases h
    exact ⟨rfl, rfl, rfl, Or.inl rfl⟩

theorem updateProductPrice_ok {form : Form} {p p1 : Product}
    (h : updateProductPrice form p = .ok p1) :
    p1.ID = p.ID ∧ p1.UserID = p.UserID ∧ p1.Name = p.Name := by
  unfold updateProductPrice at h
  simp only at h
  split at h
  · split at h
    · cases h
    · cases h
      exact ⟨rfl, rfl, rfl⟩
  · cases h
    exact ⟨rfl, rfl, rfl⟩

theorem createUser_db (db : DB) (faults : Faults) (form : Form) :
    (createUser db faults form).1 = db ∨
    ∃ row, (createUser db faults form).1 =
      { db with users := db.users ++ [row], userSeq := max db.userSeq (row.ID + 1) } := by
  simp only [createUser]
  split
  · exact Or.inl rfl
  · split
    · exact Or.inl rfl
    · rename_i db1 row hc
      exact Or.inr ⟨row, createUser_ok hc⟩

theorem updateUser_db (db : DB) (faults : Faults) (id : Int) (form : Form) :
    (updateUser db faults id form).1 = db ∨
    ∃ user : User, (updateUser db faults id form).1 = { db with
      users := db.users.map
        (fun row => if selects id user.ID row.ID then row.patch user else row) } := by
  simp only [updateUser]
  split
  · exact Or.inl rfl
  · split
    · exact Or.inl rfl
    · rename_i user _
      simp only [DB.updatesUser]
      split
      · exact Or.inl rfl
      · rename_i db1 hc
        split at hc
        · cases hc
        · cases hc
          exact Or.inr ⟨user, rfl⟩

theorem deleteUser_db (db : DB) (faults : Faults) (id : Int) :
    ((deleteUser db faults id).1 = db ∧ (deleteUser db faults id).2.status ≠ 200) ∨
    ∃ user : User, user ∈ db.users ∧ user.ID = id ∧ (deleteUser db faults id).1 =
      { db with
        users := db.users.filter (fun row => !selects id user.ID row.ID)
        products := db.products.filter (fun p =>
          !db.users.any (fun row => selects id user.ID row.ID && p.UserID == row.ID) ) } := by
  simp only [deleteUser]
  split
  · exact Or.inl ⟨rfl, by simp [errorJSON]⟩
  · rename_i user hu
    simp only [DB.deleteUser]
    split
    · exact Or.inl ⟨rfl, by simp [errorJSON]⟩
    · rename_i db1 hc
      split at hc
      · cases hc
      · cases hc
        exact Or.inr ⟨user, (firstUser_ok hu).1, (firstUser_ok hu).2, rfl⟩

theorem createProduct_db (db : DB) (faults : Faults) (form : Form) :
    (createProduct db faults form).1 = db ∨
    ∃ row u, db.firstUser faults row.UserID = .ok u ∧
      (createProduct db faults form).1 = { db with
        products := db.products ++ [row], productSeq := max db.productSeq (row.ID + 1) } := by
  simp only [createProduct]
  split
  · exact Or.inl rfl
  · split
    · exact Or.inl rfl
    · rename_i n _ u hu
      split
      · exact Or.inl rfl
      · split
        · exact Or.inl rfl
        · rename_i db1 row hc
          have := createProduct_ok hc
          refine Or.inr ⟨row, u, ?_, this.1⟩
          rw [this.2]
          exact hu

theorem updateProduct_db (db : DB) (faults : Faults) (id : Int) (form : Form) :
    (updateProduct db faults id form).1 = db ∨
    ∃ fetched product : Product, fetched ∈ db.products ∧ fetched.ID = id ∧ product.ID = id ∧
      (product.UserID = fetched.UserID ∨ ∃ u, db.firstUser faults product.UserID = .ok u) ∧
      (updateProduct db faults id form).1 = { db with
        products := db.products.map
          (fun row => if selects id product.ID row.ID then row.patch product else row) } := by
  simp only [updateProduct]
  split
  · exact Or.inl rfl
  · rename_i fetched hfetch
    split
    · exact Or.inl rfl
    · rename_i p1 hown
      split
      · exact Or.inl rfl
      · rename_i p2 hprice
        simp only [DB.updatesProduct]
        split
        · exact Or.inl rfl
        · rename_i db1 hc
          split at hc
          · cases hc
          · cases hc
            have h1 := updateProductOwner_ok hown
            have h2 := updateProductPrice_ok hprice
            have h3 := firstProduct_ok hfetch
            refine Or.inr ⟨fetched, p2, h3.1, h3.2, ?_, ?_, rfl⟩
            · rw [h2.1]
              split <;> simp [h1.1, h3.2]
            · rw [h2.2.1]
              have : ∀ q : Product, (if PostForm form "name" ≠ "" then
                  { q with Name := PostForm form "name" } else q).UserID = q.UserID := by
                intro q
                split <;> rfl
              rw [this]
              exact h1.2.2.2

theorem deleteProduct_db (db : DB) (faults : Faults) (id : Int) :
    (deleteProduct db faults id).1 = db ∨
    ∃ product : Product, (deleteProduct db faults id).1 = { db with
      products := db.products.filter (fun row => !selects id product.ID row.ID) } := by
  simp only [deleteProduct]
  split
  · exact Or.inl rfl
  · rename_i product _
    simp only [DB.deleteProduct]
    split
    · exact Or.inl rfl
    · rename_i db1 hc
      split at hc
      · cases hc
      · cases hc
        exact Or.inr ⟨product, rfl⟩

theorem read_handlers_db (db : DB) (faults : Faults) (id : Int) :
    (getUser db faults id).1 = db ∧ (listUsers db faults).1 = db ∧
    (getProduct db faults id).1 = db ∧ (listProducts db faults).1 = db ∧
    (userProducts db faults id).1 = db ∧ (productOwner db faults id).1 = db := by
  refine ⟨?_, ?_, ?_, ?_, ?_, ?_⟩ <;>
    simp only [getUser, listUsers, getProduct, listProducts, userProducts, productOwner] <;>
    (repeat' split) <;> rfl

theorem owner_kept_of_mem {db : DB} (faults : Faults) {p : Product} (hp : p ∈ db.products) :
    (∃ q ∈ db.products, q.ID = p.ID ∧ q.UserID = p.UserID) ∨
    ∃ u, db.firstUser faults p.UserID = .ok u :=
  Or.inl ⟨p, hp, rfl, rfl⟩

theorem deleteUser_cascade (db : DB) (faults : Faults) (id : Int)
    (h : (deleteUser db faults id).2.status = 200) :
    (∀ u ∈ (deleteUser db faults id).1.users, u.ID ≠ id) ∧
    (∀ p ∈ (deleteUser db faults id).1.products, p.UserID ≠ id) := by
  rcases deleteUser_db db faults id with ⟨_, hne⟩ | ⟨user, hmem, hid, hdb⟩
  · exact absurd h hne
  · rw [hdb]
    subst hid
    constructor
    · intro u hu
      simp only [List.mem_filter, selects_self] at hu
      simpa using hu.2
    · intro p hp he
      simp only [List.mem_filter, selects_self] at hp
      have := hp.2
      simp only [Bool.not_eq_true', List.any_eq_false] at this
      have := this user hmem
      simp [he] at this

theorem refIntegrity_deleteUser (db : DB) (faults : Faults) (id : Int) (h : RefIntegrity db) :
    RefIntegrity (deleteUser db faults id).1 := by
  rcases deleteUser_db db faults id with ⟨he, _⟩ | ⟨user, _, _, hdb⟩
  · rw [he]; exact h
  · rw [hdb]
    intro p hp
    simp only [List.mem_filter] at hp
    obtain ⟨u, hu, hup⟩ := h p hp.1
    refine ⟨u, ?_, hup⟩
    simp only [List.mem_filter]
    refine ⟨hu, ?_⟩
    have := hp.2
    simp only [Bool.not_eq_true', List.any_eq_false] at this
    have := this u hu
    simpa [hup] using this

theorem refIntegrity_updateProduct (db : DB) (faults : Faults) (id : Int) (form : Form)
    (h : RefIntegrity db) : RefIntegrity (updateProduct db faults id form).1 := by
  rcases updateProduct_db db faults id form with he | ⟨fetched, product, hf, _, _, hown, hdb⟩
  · rw [he]; exact h
  · rw [hdb]
    intro p hp
    simp only [List.mem_map] at hp
    obtain ⟨row, hrow, rfl⟩ := hp
    split
    · simp only [Product.patch]
      split
      · exact h row hrow
      · rcases hown with hsame | ⟨u, hu⟩
        · rw [hsame]; exact h fetched hf
        · exact ⟨u, (firstUser_ok hu).1, (firstUser_ok hu).2⟩
    · exact h row hrow

theorem owner_looked_up_updateProduct (db : DB) (faults : Faults) (id : Int) (form : Form) :
    ∀ p ∈ (updateProduct db faults id form).1.products,
      (∃ q ∈ db.products, q.ID = p.ID ∧ q.UserID = p.UserID) ∨
      ∃ u, db.firstUser faults p.UserID = .ok u := by
  rcases updateProduct_db db faults id form with he | ⟨fetched, product, hf, hfid, hpid, hown, hdb⟩
  · rw [he]; exact fun p hp => owner_kept_of_mem faults hp
  · rw [hdb]
    intro p hp
    simp only [List.mem_map] at hp
    obtain ⟨row, hrow, rfl⟩ := hp
    split
    · rename_i hsel
      have hrid : row.ID = id := by
        simp only [selects, Bool.and_eq_true, beq_iff_eq] at hsel
        exact hsel.1
      simp only [Product.patch]
      split
      · exact Or.inl ⟨row, hrow, rfl, rfl⟩
      · rcases hown with hsame | hlook
        · exact Or.inl ⟨fetched, hf, by rw [hfid, hrid], hsame.symm⟩
        · exact Or.inr hlook
    · exact owner_kept_of_mem faults hrow

/-- A key handed out is not handed out again: user 3 created on the sample
database and deleted, the next user gets key 4; product 2 deleted, the next
product gets key 3. -/
theorem deleted_key_is_not_reused :
    (createUser sampleDB noFaults aliceForm).2.data = .user ⟨3, "Alice", "a@x.com", "F", 30⟩ ∧
    (deleteUser (createUser sampleDB noFaults aliceForm).1 noFaults 3).1.users =
      sampleDB.users ∧
    (createUser (deleteUser (createUser sampleDB noFaults aliceForm).1 noFaults 3).1
      noFaults aliceForm).2.data = .user ⟨4, "Alice", "a@x.com", "F", 30⟩ ∧
    (createProduct (deleteProduct sampleDB noFaults 2).1 noFaults cupForm).2.data =
      .product ⟨3, 1, "cup", 3⟩ := by
  decide

/-! ## The claims -/

/-- C1. Whatever the database state, the storage faults and the request to
any of the twelve handlers, exactly one of the `message` and `error` keys of
the response envelope is non-null. -/
theorem envelope_message_xor_error (db : DB) (faults : Faults) (req : Request) :
    ((handle db faults req).2.message ≠ none ∧ (handle db faults req).2.error = none) ∨
    ((handle db faults req).2.message = none ∧ (handle db faults req).2.error ≠ none) := by
  cases req <;>
    simp only [handle, getUser, listUsers, createUser, updateUser, deleteUser, getProduct,
      listProducts, createProduct, updateProduct, deleteProduct, userProducts, productOwner]
  all_goals (repeat' split)
  all_goals first
    | (simp [errorJSON, okJSON, listJSON]; done)
    | (rename_i h; rcases updateProductOwner_error h with rfl | rfl <;> simp [errorJSON])
    | (rename_i h; rcases updateProductPrice_error h with rfl; simp [errorJSON])

/-- C2, as stated, fails: on the empty database, with every statement
succeeding, `listUsers` and `listProducts` respond 200, not 404. -/
theorem list_empty_is_not_404 :
    emptyDB.users = [] ∧ emptyDB.products = [] ∧
    noFaults .findUsers = false ∧ noFaults .findProducts = false ∧
    (listUsers emptyDB noFaults).2.status = 200 ∧
    (listUsers emptyDB noFaults).2.status ≠ 404 ∧
    (listProducts emptyDB noFaults).2.status = 200 ∧
    (listProducts emptyDB noFaults).2.status ≠ 404 := by
  decide

/-- C2, amended. When the users table (respectively the products table) is
empty and the query itself succeeds, `listUsers` (respectively `listProducts`)
responds 200 with an empty list as data, `totalCount` 0 and the message
"no record found", and leaves the database as it was. -/
theorem list_empty_is_200 (db : DB) (faults : Faults) :
    (db.users = [] → faults .findUsers = false →
      listUsers db faults = (db, listJSON (.users []) 0 "no record found") ∧
      (listUsers db faults).2.status = 200) ∧
    (db.products = [] → faults .findProducts = false →
      listProducts db faults = (db, listJSON (.products []) 0 "no record found") ∧
      (listProducts db faults).2.status = 200) := by
  constructor
  · intro he hf
    simp [listUsers, DB.findUsers, he, hf, listJSON]
  · intro he hf
    simp [listProducts, DB.findProducts, he, hf, listJSON]

/-- The two list handlers on the empty database, every statement succeeding. -/
theorem list_empty_is_200_witness :
    listUsers emptyDB noFaults = (emptyDB, listJSON (.users []) 0 "no record found") ∧
    listProducts emptyDB noFaults = (emptyDB, listJSON (.products []) 0 "no record found") :=
  ⟨((list_empty_is_200 emptyDB noFaults).1 rfl rfl).1,
   ((list_empty_is_200 emptyDB noFaults).2 rfl rfl).1⟩

/-- C3. When the `user_id` field of a `createProduct` request parses as an
integer that is the key of no stored user, the response is 404 with error
"user not found" and nothing is inserted, whatever the other fields are and
whichever statements fail. -/
theorem createProduct_unknown_user (db : DB) (faults : Faults) (form : Form) (n : Int)
    (hparse : Atoi (PostForm form "user_id") = some n)
    (hmiss : ∀ u ∈ db.users, u.ID ≠ n) :
    (createProduct db faults form).2.status = 404 ∧
    (createProduct db faults form).2.error = some "user not found" ∧
    (createProduct db faults form).2 = errorJSON 404 "user not found" ∧
    (createProduct db faults form).1.products = db.products ∧
    (createProduct db faults form).1 = db := by
  obtain ⟨e, he⟩ := firstUser_of_missing faults hmiss
  simp [createProduct, hparse, he, errorJSON]

/-- A product posted for user 7, who is not stored, with a price that does not
parse: 404 and no insert. -/
theorem createProduct_unknown_user_witness :
    Atoi (PostForm orphanForm "price") = none ∧
    (createProduct sampleDB noFaults orphanForm).2.status = 404 ∧
    (createProduct sampleDB noFaults orphanForm).2.error = some "user not found" ∧
    (createProduct sampleDB noFaults orphanForm).2 = errorJSON 404 "user not found" ∧
    (createProduct sampleDB noFaults orphanForm).1.products = sampleDB.products ∧
    (createProduct sampleDB noFaults orphanForm).1 = sampleDB :=
  ⟨by decide, createProduct_unknown_user sampleDB noFaults orphanForm 7 (by decide) (by decide)⟩

/-- C4. For a stored user `u` (keys being unique in the users table) and an
`updateUser` request on `u`'s id whose form supplies only a non-empty name `X`,
when the lookup and the write execute without a storage error the response is
200, the user in the response and the row stored under `u`'s id afterwards are
`u` with name `X` (same id, email, gender and age), every other stored user is
unchanged and so is every product. -/
theorem updateUser_name_only (db : DB) (faults : Faults) (u : User) (form : Form) (X : String)
    (hkey : (db.users.map (fun r => r.ID)).Nodup)
    (hu : u ∈ db.users)
    (hname : PostForm form "name" = X) (hX : X ≠ "")
    (hemail : PostForm form "email" = "")
    (hgender : PostForm form "gender" = "")
    (hage : PostForm form "age" = "")
    (hread : faults .firstUser = false)
    (hwrite : faults .updatesUser = false) :
    (updateUser db faults u.ID form).2.status = 200 ∧
    (updateUser db faults u.ID form).2.data = .user ⟨u.ID, X, u.Email, u.Gender, u.Age⟩ ∧
    (updateUser db faults u.ID form).1.users.find? (fun r => r.ID == u.ID) =
      some ⟨u.ID, X, u.Email, u.Gender, u.Age⟩ ∧
    (∀ r ∈ (updateUser db faults u.ID form).1.users, r.ID = u.ID →
      r = ⟨u.ID, X, u.Email, u.Gender, u.Age⟩) ∧
    (updateUser db faults u.ID form).1.users =
      db.users.map (fun r => if r.ID = u.ID then ⟨u.ID, X, u.Email, u.Gender, u.Age⟩ else r) ∧
    (∀ r : User, r.ID ≠ u.ID →
      (r ∈ (updateUser db faults u.ID form).1.users ↔ r ∈ db.users)) ∧
    (updateUser db faults u.ID form).1.products = db.products := by
  have hfind := find_user_of_mem hkey hu
  have hpatch : ∀ r ∈ db.users,
      (if selects u.ID u.ID r.ID then r.patch ⟨u.ID, X, u.Email, u.Gender, u.Age⟩ else r) =
      (if r.ID = u.ID then ⟨u.ID, X, u.Email, u.Gender, u.Age⟩ else r) := by
    intro r hr
    rw [selects_self]
    by_cases hid : r.ID = u.ID
    · have hru : r = u := List.inj_on_of_nodup_map hkey hr hu hid
      subst hru
      simp only [beq_self_eq_true, if_true, User.patch, hX]
      cases r
      simp only [if_false, User.mk.injEq, true_and]
      refine ⟨?_, ?_, ?_⟩ <;> split <;> simp_all
    · simp [hid]
  have hout : updateUser db faults u.ID form =
      (⟨db.users.map
          (fun r => if r.ID = u.ID then ⟨u.ID, X, u.Email, u.Gender, u.Age⟩ else r),
          db.products, db.userSeq, db.productSeq⟩,
        okJSON (.user ⟨u.ID, X, u.Email, u.Gender, u.Age⟩) "user updated successfully") := by
    simp only [updateUser, DB.firstUser, hread, hfind, hname, hemail, hgender, hage,
      DB.updatesUser, hwrite, ne_eq, hX, not_false_eq_true, not_true_eq_false, if_true,
      if_false, Bool.false_eq_true]
    rw [List.map_congr_left hpatch]
  rw [hout]
  refine ⟨rfl, rfl, ?_, ?_, rfl, ?_, rfl⟩
  · simp only
    rw [List.find?_map]
    have hcomp : ((fun r : User => r.ID == u.ID) ∘
        (fun r => if r.ID = u.ID then (⟨u.ID, X, u.Email, u.Gender, u.Age⟩ : User) else r)) =
        (fun r => r.ID == u.ID) := by
      funext r
      simp only [Function.comp]
      split <;> simp_all
    rw [hcomp, hfind]
    simp
  · intro r hr hid
    simp only [List.mem_map] at hr
    obtain ⟨r0, _, h0⟩ := hr
    split at h0
    · exact h0.symm
    · subst h0
      contradiction
  · intro r hne
    simp only [List.mem_map]
    constructor
    · rintro ⟨r0, hr0, h0⟩
      split at h0
      · subst h0
        exact absurd rfl hne
      · subst h0
        exact hr0
    · intro hr
      exact ⟨r, hr, by simp [hne]⟩

/-- A name-only update of user 1 of the sample database. -/
theorem updateUser_name_only_witness :
    (updateUser sampleDB noFaults 1 [("name", "X")]).2.status = 200 ∧
    (updateUser sampleDB noFaults 1 [("name", "X")]).2.data =
      .user ⟨1, "X", "a@x.com", "F", 30⟩ ∧
    (updateUser sampleDB noFaults 1 [("name", "X")]).1.users =
      [⟨1, "X", "a@x.com", "F", 30⟩, ⟨2, "Bob", "b@x.com", "M", 41⟩] ∧
    (updateUser sampleDB noFaults 1 [("name", "X")]).1.products = sampleDB.products :=
  have h := updateUser_name_only sampleDB noFaults ⟨1, "Ann", "a@x.com", "F", 30⟩
    [("name", "X")] "X" (by decide) (by decide) (by decide) (by decide) (by decide)
    (by decide) (by decide) rfl rfl
  ⟨h.1, h.2.1, h.2.2.2.2.1, h.2.2.2.2.2.2⟩

/-- C5. When the `age` field of a `createUser` request parses as an integer
and the insert succeeds, the response is 200 with a user carrying a key that no
stored user had, and a following `getUser` on that key (its lookup executing
without a storage error) responds 200 with a user whose name, email, gender
and age are the submitted name, email, gender and the parsed age. -/
theorem create_then_get_user (db : DB) (faults faults2 : Faults) (form : Form) (a : Int)
    (hage : Atoi (PostForm form "age") = some a)
    (hins : faults .createUser = false)
    (hread : faults2 .firstUser = false) :
    ∃ id : Int, (∀ u ∈ db.users, u.ID ≠ id) ∧
      (createUser db faults form).2.status = 200 ∧
      (createUser db faults form).2.data =
        .user ⟨id, PostForm form "name", PostForm form "email", PostForm form "gender", a⟩ ∧
      (getUser (createUser db faults form).1 faults2 id).2.status = 200 ∧
      (getUser (createUser db faults form).1 faults2 id).2.data =
        .user ⟨id, PostForm form "name", PostForm form "email", PostForm form "gender", a⟩ := by
  have hc := createUser_zero_key db
    ⟨0, PostForm form "name", PostForm form "email", PostForm form "gender", a⟩ hins rfl
  have hnone : db.users.find? (fun u => u.ID == db.nextUserID) = none := by
    rw [List.find?_eq_none]
    intro u hu
    have := lt_nextUserID db u hu
    simp only [beq_iff_eq]
    omega
  refine ⟨db.nextUserID, ?_, ?_, ?_, ?_, ?_⟩
  · intro u hu
    have := lt_nextUserID db u hu
    omega
  all_goals
    simp [createUser, hage, User.zero, hc, okJSON, getUser, DB.firstUser, hread,
      List.find?_append, hnone]

/-- Alice created on the sample database and fetched back. -/
theorem create_then_get_user_witness :
    ∃ id : Int, (∀ u ∈ sampleDB.users, u.ID ≠ id) ∧
      (createUser sampleDB noFaults aliceForm).2.status = 200 ∧
      (createUser sampleDB noFaults aliceForm).2.data =
        .user ⟨id, PostForm aliceForm "name", PostForm aliceForm "email",
          PostForm aliceForm "gender", 30⟩ ∧
      (getUser (createUser sampleDB noFaults aliceForm).1 noFaults id).2.status = 200 ∧
      (getUser (createUser sampleDB noFaults aliceForm).1 noFaults id).2.data =
        .user ⟨id, PostForm aliceForm "name", PostForm aliceForm "email",
          PostForm aliceForm "gender", 30⟩ :=
  create_then_get_user sampleDB noFaults noFaults aliceForm 30 (by decide) rfl rfl

/-- C6. Referential integrity is an invariant of the twelve handlers: when
every stored product's `user_id` is the key of a stored user before a request,
the same is true after it, whichever statements fail.  Every product stored
after the request either keeps the owner a product of the same key had before
it, or has an owner whose lookup succeeded on the state before the request.
After a `deleteUser` that responds 200, neither the user nor any product owned
by it is stored. -/
theorem handlers_preserve_ref_integrity (db : DB) (faults : Faults) (req : Request)
    (h : RefIntegrity db) :
    RefIntegrity (handle db faults req).1 ∧
    (∀ p ∈ (handle db faults req).1.products,
      (∃ q ∈ db.products, q.ID = p.ID ∧ q.UserID = p.UserID) ∨
      ∃ u, db.firstUser faults p.UserID = .ok u) ∧
    (∀ id, req = .deleteUser id → (handle db faults req).2.status = 200 →
      (∀ u ∈ (handle db faults req).1.users, u.ID ≠ id) ∧
      (∀ p ∈ (handle db faults req).1.products, p.UserID ≠ id)) := by
  have hread := read_handlers_db db faults
  cases req with
  | getUser id =>
    simp only [handle, (hread id).1]
    exact ⟨h, fun p hp => owner_kept_of_mem faults hp, by simp⟩
  | listUsers =>
    simp only [handle, (hread 0).2.1]
    exact ⟨h, fun p hp => owner_kept_of_mem faults hp, by simp⟩
  | getProduct id =>
    simp only [handle, (hread id).2.2.1]
    exact ⟨h, fun p hp => owner_kept_of_mem faults hp, by simp⟩
  | listProducts =>
    simp only [handle, (hread 0).2.2.2.1]
    exact ⟨h, fun p hp => owner_kept_of_mem faults hp, by simp⟩
  | userProducts id =>
    simp only [handle, (hread id).2.2.2.2.1]
    exact ⟨h, fun p hp => owner_kept_of_mem faults hp, by simp⟩
  | productOwner id =>
    simp only [handle, (hread id).2.2.2.2.2]
    exact ⟨h, fun p hp => owner_kept_of_mem faults hp, by simp⟩
  | createUser form =>
    simp only [handle]
    refine ⟨?_, ?_, by simp⟩ <;> rcases createUser_db db faults form with he | ⟨row, he⟩ <;>
      rw [he]
    · exact h
    · intro p hp
      obtain ⟨u, hu, hup⟩ := h p hp
      exact ⟨u, List.mem_append_left _ hu, hup⟩
    · exact fun p hp => owner_kept_of_mem faults hp
    · exact fun p hp => owner_kept_of_mem faults hp
  | updateUser id form =>
    simp only [handle]
    refine ⟨?_, ?_, by simp⟩ <;> rcases updateUser_db db faults id form with he | ⟨user, he⟩ <;>
      rw [he]
    · exact h
    · intro p hp
      obtain ⟨u, hu, hup⟩ := h p hp
      refine ⟨_, List.mem_map_of_mem _ hu, ?_⟩
      split
      · rw [user_patch_keeps_ID]; exact hup
      · exact hup
    · exact fun p hp => owner_kept_of_mem faults hp
    · exact fun p hp => owner_kept_of_mem faults hp
  | deleteUser id =>
    simp only [handle]
    refine ⟨refIntegrity_deleteUser db faults id h, ?_, ?_⟩
    · rcases deleteUser_db db faults id with ⟨he, _⟩ | ⟨user, _, _, he⟩ <;> rw [he]
      · exact fun p hp => owner_kept_of_mem faults hp
      · intro p hp
        exact owner_kept_of_mem faults (List.mem_filter.mp hp).1
    · intro id2 hreq hst
      cases hreq
      exact deleteUser_cascade db faults id hst
  | createProduct form =>
    simp only [handle]
    refine ⟨?_, ?_, by simp⟩ <;>
      rcases createProduct_db db faults form with he | ⟨row, u, hu, he⟩ <;> rw [he]
    · exact h
    · intro p hp
      rcases List.mem_append.mp hp with hp | hp
      · exact h p hp
      · rw [List.mem_singleton] at hp
        subst hp
        exact ⟨u, (firstUser_ok hu).1, (firstUser_ok hu).2⟩
    · exact fun p hp => owner_kept_of_mem faults hp
    · intro p hp
      rcases List.mem_append.mp hp with hp | hp
      · exact owner_kept_of_mem faults hp
      · rw [List.mem_singleton] at hp
        subst hp
        exact Or.inr ⟨u, hu⟩
  | updateProduct id form =>
    simp only [handle]
    exact ⟨refIntegrity_updateProduct db faults id form h,
      owner_looked_up_updateProduct db faults id form, by simp⟩
  | deleteProduct id =>
    simp only [handle]
    refine ⟨?_, ?_, by simp⟩ <;>
      rcases deleteProduct_db db faults id with he | ⟨product, he⟩ <;> rw [he]
    · exact h
    · intro p hp
      exact h p (List.mem_filter.mp hp).1
    · exact fun p hp => owner_kept_of_mem faults hp
    · intro p hp
      exact owner_kept_of_mem faults (List.mem_filter.mp hp).1

/-- Moving product 1 to user 2, and deleting user 1, on the sample database. -/
theorem handlers_preserve_ref_integrity_witness :
    RefIntegrity sampleDB ∧
    (handle sampleDB noFaults (.updateProduct 1 moveForm)).1.products =
      [⟨1, 2, "pen", 5⟩, ⟨2, 1, "ink", 7⟩] ∧
    RefIntegrity (handle sampleDB noFaults (.updateProduct 1 moveForm)).1 ∧
    RefIntegrity (handle sampleDB noFaults (.deleteUser 1)).1 ∧
    (handle sampleDB noFaults (.deleteUser 1)).1.products = [] :=
  ⟨by decide, by decide,
    (handlers_preserve_ref_integrity sampleDB noFaults (.updateProduct 1 moveForm)
      (by decide)).1,
    (handlers_preserve_ref_integrity sampleDB noFaults (.deleteUser 1) (by decide)).1,
    by decide⟩

/-- C7. `userProducts` responds 404 with error "user not found" when no user
with the requested id is stored.  When such a user is stored and the lookup
and the product query execute without a storage error, it responds 200 with
data equal to the stored products whose `user_id` is that id and `totalCount`
equal to the length of data; for a stored user who owns no product that is 200
with an empty list and `totalCount` 0. -/
theorem userProducts_spec (db : DB) (faults : Faults) (id : Int) :
    ((∀ u ∈ db.users, u.ID ≠ id) →
      (userProducts db faults id).2.status = 404 ∧
      (userProducts db faults id).2.error = some "user not found") ∧
    ((∃ u ∈ db.users, u.ID = id) → faults .firstUser = false →
      faults .findUserProducts = false →
      (userProducts db faults id).2.status = 200 ∧
      (userProducts db faults id).2.data =
        .products (db.products.filter (fun p => p.UserID == id)) ∧
      (userProducts db faults id).2.totalCount =
        some (db.products.filter (fun p => p.UserID == id)).length ∧
      ((∀ p ∈ db.products, p.UserID ≠ id) →
        (userProducts db faults id).2.data = .products [] ∧
        (userProducts db faults id).2.totalCount = some 0)) := by
  constructor
  · intro hmiss
    obtain ⟨e, he⟩ := firstUser_of_missing faults hmiss
    simp [userProducts, he, errorJSON]
  · intro hst hf hq
    obtain ⟨u, hu⟩ := firstUser_of_stored hst hf
    refine ⟨?_, ?_, ?_, fun h => ⟨?_, ?_⟩⟩ <;>
      simp [userProducts, hu, DB.findUserProducts, hq, listJSON]
    · exact h
    · exact h

/-- The products of a missing user (7), of user 1 and of user 2, who owns none. -/
theorem userProducts_spec_witness :
    (userProducts sampleDB noFaults 7).2.status = 404 ∧
    (userProducts sampleDB noFaults 7).2.error = some "user not found" ∧
    (userProducts sampleDB noFaults 1).2.status = 200 ∧
    (userProducts sampleDB noFaults 1).2.data = .products [⟨1, 1, "pen", 5⟩, ⟨2, 1, "ink", 7⟩] ∧
    (userProducts sampleDB noFaults 1).2.totalCount = some 2 ∧
    (userProducts sampleDB noFaults 2).2.status = 200 ∧
    (userProducts sampleDB noFaults 2).2.data = .products [] ∧
    (userProducts sampleDB noFaults 2).2.totalCount = some 0 :=
  have h7 := (userProducts_spec sampleDB noFaults 7).1 (by decide)
  have h1 := (userProducts_spec sampleDB noFaults 1).2 (by decide) rfl rfl
  have h2 := (userProducts_spec sampleDB noFaults 2).2 (by decide) rfl rfl
  ⟨h7.1, h7.2, h1.1, h1.2.1, h1.2.2.1, h2.1, (h2.2.2.2 (by decide)).1,
    (h2.2.2.2 (by decide)).2⟩

/-- C8. `createUser` responds 400 with error "invalid age format", inserting no
user, exactly when the `age` field does not parse under `strconv.Atoi`; an
absent or empty `age` does not parse.  When it parses and the insert succeeds
the response is 200 with the created user, stored under a key no stored user
had, whose age is the parsed integer. -/
theorem createUser_age_validation (db : DB) (faults : Faults) (form : Form) :
    (((createUser db faults form).2.status = 400 ∧
        (createUser db faults form).2.error = some "invalid age format" ∧
        (createUser db faults form).1.users = db.users) ↔
      Atoi (PostForm form "age") = none) ∧
    ((∀ kv ∈ form, kv.1 ≠ "age") → PostForm form "age" = "") ∧
    (PostForm form "age" = "" → Atoi (PostForm form "age") = none) ∧
    (∀ a, Atoi (PostForm form "age") = some a → faults .createUser = false →
      (createUser db faults form).2.status = 200 ∧
      ∃ id : Int, (∀ u ∈ db.users, u.ID ≠ id) ∧
        (createUser db faults form).2.data =
          .user ⟨id, PostForm form "name", PostForm form "email",
            PostForm form "gender", a⟩ ∧
        (createUser db faults form).1.users =
          db.users ++ [⟨id, PostForm form "name", PostForm form "email",
            PostForm form "gender", a⟩]) := by
  refine ⟨⟨?_, ?_⟩, ?_, ?_, ?_⟩
  · intro h
    cases hp : Atoi (PostForm form "age") with
    | none => rfl
    | some a =>
      exfalso
      have hs := h.1
      simp only [createUser, hp] at hs
      split at hs <;> simp [errorJSON, okJSON] at hs
  · intro hp
    simp [createUser, hp, errorJSON]
  · intro habs
    have : form.find? (fun kv => kv.1 == "age") = none := by
      rw [List.find?_eq_none]
      intro kv hkv
      simpa using habs kv hkv
    simp [PostForm, this]
  · intro he
    rw [he]
    decide
  · intro a hp hf
    have hc := createUser_zero_key db
      ⟨0, PostForm form "name", PostForm form "email", PostForm form "gender", a⟩ hf rfl
    refine ⟨?_, db.nextUserID, ?_, ?_, ?_⟩
    · simp [createUser, hp, User.zero, hc, okJSON]
    · intro u hu
      have := lt_nextUserID db u hu
      omega
    · simp [createUser, hp, User.zero, hc, okJSON]
    · simp [createUser, hp, User.zero, hc, okJSON]

/-- A user posted without an age, and Alice posted with age 30. -/
theorem createUser_age_validation_witness :
    (createUser sampleDB noFaults [("name", "Alice")]).2.status = 400 ∧
    (createUser sampleDB noFaults [("name", "Alice")]).2.error = some "invalid age format" ∧
    (createUser sampleDB noFaults [("name", "Alice")]).1.users = sampleDB.users ∧
    (createUser sampleDB noFaults aliceForm).2.status = 200 ∧
    ∃ id : Int, (∀ u ∈ sampleDB.users, u.ID ≠ id) ∧
      (createUser sampleDB noFaults aliceForm).2.data =
        .user ⟨id, PostForm aliceForm "name", PostForm aliceForm "email",
          PostForm aliceForm "gender", 30⟩ ∧
      (createUser sampleDB noFaults aliceForm).1.users =
        sampleDB.users ++ [⟨id, PostForm aliceForm "name", PostForm aliceForm "email",
          PostForm aliceForm "gender", 30⟩] :=
  have h0 := (createUser_age_validation sampleDB noFaults [("name", "Alice")]).1.2 (by decide)
  have h1 := (createUser_age_validation sampleDB noFaults aliceForm).2.2.2 30 (by decide) rfl
  ⟨h0.1, h0.2.1, h0.2.2, h1.1, h1.2⟩

/-- C9 fails on the code: an `updateUser` request with `age=0` on stored user 1
(age 30) responds 200 with age 0 in the response while the stored row keeps age
30, and an `updateProduct` request with `price=0` on stored product 1 (price 5)
responds 200 with price 0 while the stored row keeps price 5. -/
theorem update_zero_value_diverges :
    (updateUser sampleDB noFaults 1 zeroAgeForm).2.status = 200 ∧
    (updateUser sampleDB noFaults 1 zeroAgeForm).2.data =
      .user ⟨1, "Ann", "a@x.com", "F", 0⟩ ∧
    (updateUser sampleDB noFaults 1 zeroAgeForm).1.users.find? (fun r => r.ID == 1) =
      some ⟨1, "Ann", "a@x.com", "F", 30⟩ ∧
    (updateProduct sampleDB noFaults 1 zeroPriceForm).2.status = 200 ∧
    (updateProduct sampleDB noFaults 1 zeroPriceForm).2.data = .product ⟨1, 1, "pen", 0⟩ ∧
    (updateProduct sampleDB noFaults 1 zeroPriceForm).1.products.find? (fun r => r.ID == 1) =
      some ⟨1, 1, "pen", 5⟩ := by
  decide

/-- C10. Whatever the database state, the storage faults and the request to
any of the twelve handlers, a response whose status is not 200 leaves the
stored users and products exactly as they were. -/
theorem failure_is_atomic (db : DB) (faults : Faults) (req : Request)
    (h : (handle db faults req).2.status ≠ 200) : (handle db faults req).1 = db := by
  revert h
  cases req <;>
    simp only [handle, getUser, listUsers, createUser, updateUser, deleteUser, getProduct,
      listProducts, createProduct, updateProduct, deleteProduct, userProducts, productOwner]
  all_goals (repeat' split)
  all_goals simp [errorJSON, okJSON, listJSON]

/-- An update of user 1 with a new name and a malformed age writes nothing. -/
theorem failure_is_atomic_witness :
    (handle sampleDB noFaults (.updateUser 1 badAgeForm)).2.status = 400 ∧
    (handle sampleDB noFaults (.updateUser 1 badAgeForm)).1 = sampleDB :=
  ⟨by decide, failure_is_atomic sampleDB noFaults (.updateUser 1 badAgeForm) (by decide)⟩

end GoCrud
